import Mathlib

/-!
Shallow embedding of the quickshare SQLite user store
(`src/db/rdb/sqlite/users.go`) and proofs about its usage-accounting,
quota-enforcement and CRUD behaviour.

The durable storage collaborator (the `t_user` table of the relational
engine) is modelled as a list of rows whose columns are exactly those of
the SQL schema: `id, name, pwd, role, used_space, quota, preference`,
with `quota` and `preference` holding the encoded textual form of the
structured sub-records.  Each store method becomes a pure function from
the table to `Except DbError _` (reads) or `Except DbError Table`
(writes): a returned `.ok tbl` is the committed table, a returned
`.error e` means the operation aborted and the table is unchanged
(abort-before-write discipline).

Types and helpers of the Go package `db` (the `User`, `Quota`,
`Preferences` structs, `CheckUser`, and the `encoding/json` codec) are
not part of the given source tree; they are modelled from the spec where
needed, and each such definition carries a doc comment saying so.
-/

namespace Quickshare

/-- Modelled from the spec: `db.Quota` (package `db`, not under the given
source tree) — "structured sub-record `{SpaceLimit: integer upper bound on
UsedSpace}`, persisted as an encoded blob". -/
structure Quota where
  SpaceLimit : Int
  deriving Repr, DecidableEq

/-- Modelled from the spec: `db.Preferences` (package `db`, not under the
given source tree) — "structured sub-record of user-configurable settings,
persisted as an encoded blob".  Modelled with one settings field. -/
structure Preferences where
  theme : String
  deriving Repr, DecidableEq

/-- Modelled from the spec: `db.User` (package `db`, not under the given
source tree) — identity and accounting record with fields ID, Name, Pwd,
Role, UsedSpace (signed integer), Quota, Preferences. -/
structure User where
  ID : Nat
  Name : String
  Pwd : String
  Role : String
  UsedSpace : Int
  Quota : Quota
  Preferences : Preferences
  deriving Repr, DecidableEq

/-- Error kinds surfaced by the store.  The first three are the sentinel
errors of the Go `db` package referenced by `users.go`
(`db.ErrUserNotFound`, `db.ErrReachedLimit`, `db.ErrNegtiveUsedSpace`,
Go spelling kept); the rest are the error kinds of the spec
(`ValidationError`, `DuplicateKey`, `DecodeError`, `Unimplemented`). -/
inductive DbError where
  | ErrUserNotFound
  | ErrReachedLimit
  | ErrNegtiveUsedSpace
  | ErrValidation
  | ErrDuplicateKey
  | ErrDecode
  | ErrUnimplemented
  deriving Repr, DecidableEq

/-- A row of the `t_user` table, columns as in the SQL statements of
`users.go`: `id, name, pwd, role, used_space, quota, preference`; the
`quota` and `preference` columns hold encoded text. -/
structure Row where
  id : Nat
  name : String
  pwd : String
  role : String
  used_space : Int
  quota : String
  preference : String
  deriving Repr, DecidableEq

/-- The `t_user` table of the external relational engine. -/
abbrev Table := List Row

/- ## The codec

`users.go` serializes `Quota`/`Preferences` with `encoding/json`
(external to the given source tree).  Modelled from the spec: "any
lossless structured-text encoding (the reference used a standard
key-value text serialization); round-trip (`decode(encode(x)) == x`)
must hold exactly."  We use a simple lossless text rendering: the
integer field of `Quota` as a sign-plus-unary numeral, the settings
field of `Preferences` verbatim. -/

/-- Modelled from the spec: lossless text encoding of an integer
(sign character followed by a unary numeral). -/
def encodeInt (i : Int) : String :=
  if i < 0 then String.mk ('-' :: List.replicate i.natAbs 'x')
  else String.mk (List.replicate i.natAbs 'x')

/-- Modelled from the spec: decoder matching `encodeInt`. -/
def decodeInt (s : String) : Option Int :=
  if s.data.isEmpty then some 0
  else if s.data.head? = some '-' then
    if s.data.tail.all (fun d => d == 'x') && !s.data.tail.isEmpty then
      some (-(s.data.tail.length : Int))
    else none
  else if s.data.all (fun d => d == 'x') then
    some (s.data.length : Int)
  else none

/-- Modelled from the spec: `json.Marshal` for `Quota`. -/
def encodeQuota (q : Quota) : String :=
  encodeInt q.SpaceLimit

/-- Modelled from the spec: `json.Unmarshal` for `Quota`. -/
def decodeQuota (s : String) : Option Quota :=
  (decodeInt s).map Quota.mk

/-- Modelled from the spec: `json.Marshal` for `Preferences`. -/
def encodePreferences (p : Preferences) : String :=
  p.theme

/-- Modelled from the spec: `json.Unmarshal` for `Preferences`. -/
def decodePreferences (s : String) : Option Preferences :=
  some ⟨s⟩

/- ## int64 arithmetic

`UsedSpace` and the `capacity` argument of `SetUsed` are Go `int64`
values; the sums `UsedSpace+capacity` and `UsedSpace-capacity` in
`setUsed` (users.go lines 242, 247, 249, 252) are computed with two's
complement wraparound.  `wrap64` is that wraparound on our unbounded
`Int` carrier. -/

/-- Smallest `int64` value, `-2^63`. -/
def int64Min : Int := -9223372036854775808

/-- Largest `int64` value, `2^63 - 1`. -/
def int64Max : Int := 9223372036854775807

/-- Two's-complement wraparound of Go `int64` arithmetic: reduce into
`[-2^63, 2^63 - 1]` modulo `2^64`. -/
def wrap64 (i : Int) : Int :=
  (i + 9223372036854775808) % 18446744073709551616 - 9223372036854775808

/- ## The store operations

Each method of `SQLiteStore` in `users.go` becomes a pure function on
the table.  The external engine's execution of the issued SQL is
modelled directly: `select ... where id=?` is first-match lookup,
`update ... where id=?` rewrites every matching row, `insert` appends
(subject to the schema's uniqueness of `id` and `name`, see `AddUser`),
`delete ... where id=?` drops matching rows. -/

/-- `select ... from t_user where id=?`: the row the engine hands to
`Scan`, if any. -/
def selectById (tbl : Table) (id : Nat) : Option Row :=
  tbl.find? (fun r => r.id == id)

/-- `select ... from t_user where name=?`. -/
def selectByName (tbl : Table) (name : String) : Option Row :=
  tbl.find? (fun r => r.name == name)

/-- `getUser` (users.go lines 49–83): point select by id, `ErrUserNotFound`
when no row comes back, then decode of the `quota` and `preference`
columns (a decode failure is surfaced, modelled as `ErrDecode`). -/
def getUser (tbl : Table) (id : Nat) : Except DbError User :=
  match selectById tbl id with
  | none => .error .ErrUserNotFound
  | some r =>
    match decodeQuota r.quota with
    | none => .error .ErrDecode
    | some q =>
      match decodePreferences r.preference with
      | none => .error .ErrDecode
      | some p => .ok ⟨r.id, r.name, r.pwd, r.role, r.used_space, q, p⟩

/-- `GetUser` (users.go lines 123–133): `RLock`, then `getUser`. -/
def GetUser (tbl : Table) (id : Nat) : Except DbError User :=
  getUser tbl id

/-- `GetUserByName` (users.go lines 135–172): like `getUser` but the
point select is by name. -/
def GetUserByName (tbl : Table) (name : String) : Except DbError User :=
  match selectByName tbl name with
  | none => .error .ErrUserNotFound
  | some r =>
    match decodeQuota r.quota with
    | none => .error .ErrDecode
    | some q =>
      match decodePreferences r.preference with
      | none => .error .ErrDecode
      | some p => .ok ⟨r.id, r.name, r.pwd, r.role, r.used_space, q, p⟩

/-- The row inserted by `AddUser`: the user's scalar fields plus the
encoded `quota` and `preference` columns. -/
def toRow (user : User) : Row :=
  ⟨user.ID, user.Name, user.Pwd, user.Role, user.UsedSpace,
   encodeQuota user.Quota, encodePreferences user.Preferences⟩

/-- `AddUser` (users.go lines 85–109): `Lock`, marshal the two
sub-records, `insert into t_user ...`.  Note the Go body performs no
`CheckUser` call: nothing is validated before the insert.  The
uniqueness of `id` and `name` is the schema's (external engine's)
constraint, modelled from the spec: "Fails with `DuplicateKey` if ID or
Name already exists". -/
def AddUser (tbl : Table) (user : User) : Except DbError Table :=
  if tbl.any (fun r => r.id == user.ID || r.name == user.Name) then
    .error .ErrDuplicateKey
  else
    .ok (tbl ++ [toRow user])

/-- `DelUser` (users.go lines 111–121): `delete from t_user where id=?`;
succeeds whether or not a row matched. -/
def DelUser (tbl : Table) (id : Nat) : Except DbError Table :=
  .ok (tbl.filter fun r => !(r.id == id))

/-- Modelled from the spec: `db.CheckUser` (package `db`, not under the
given source tree) — "validates the record (non-empty required fields,
well-formed quota)", failing with `ValidationError` when malformed.  The
boolean mirrors the call site `db.CheckUser(user, false)` in `setUser`:
when it is `false` an empty `Pwd` also counts as a missing required
field. -/
def CheckUser (user : User) (allowEmptyPwd : Bool) : Except DbError Unit :=
  if user.Name = "" then .error .ErrValidation
  else if user.Role = "" then .error .ErrValidation
  else if !allowEmptyPwd && user.Pwd == "" then .error .ErrValidation
  else if user.Quota.SpaceLimit < 0 then .error .ErrValidation
  else .ok ()

/-- `setUser` (users.go lines 19–47): `CheckUser(user, false)` first,
then marshal and `update t_user set name=?, pwd=?, role=?, used_space=?,
quota=?, preference=? where id=?`. -/
def setUser (tbl : Table) (user : User) : Except DbError Table :=
  match CheckUser user false with
  | .error e => .error e
  | .ok _ =>
    .ok (tbl.map fun r =>
      if r.id == user.ID then
        { r with name := user.Name, pwd := user.Pwd, role := user.Role,
                 used_space := user.UsedSpace,
                 quota := encodeQuota user.Quota,
                 preference := encodePreferences user.Preferences }
      else r)

/-- `SetPwd` (users.go lines 174–187): `update t_user set pwd=? where id=?`. -/
def SetPwd (tbl : Table) (id : Nat) (pwd : String) : Except DbError Table :=
  .ok (tbl.map fun r => if r.id == id then { r with pwd := pwd } else r)

/-- `SetInfo` (users.go lines 190–208): `update t_user set role=?,
quota=? where id=?`. -/
def SetInfo (tbl : Table) (id : Nat) (user : User) : Except DbError Table :=
  .ok (tbl.map fun r =>
    if r.id == id then
      { r with role := user.Role, quota := encodeQuota user.Quota }
    else r)

/-- `SetPreferences` (users.go lines 210–228): `update t_user set
preference=? where id=?`. -/
def SetPreferences (tbl : Table) (id : Nat) (prefers : Preferences) :
    Except DbError Table :=
  .ok (tbl.map fun r =>
    if r.id == id then { r with preference := encodePreferences prefers }
    else r)

/-- `update t_user set used_space=? where id=?` as issued by `setUsed`
and `ResetUsed`. -/
def updateUsedSpace (tbl : Table) (id : Nat) (v : Int) : Table :=
  tbl.map fun r => if r.id == id then { r with used_space := v } else r

/-- `setUsed` (users.go lines 236–268), the accounting core: read the
record, reject an increase whose (int64, hence wrapping) sum
`UsedSpace+capacity` exceeds `Quota.SpaceLimit` with `ErrReachedLimit`,
reject a decrease whose wrapping difference `UsedSpace-capacity` is
negative with `ErrNegtiveUsedSpace`, otherwise persist the new
`used_space`.  Both Go expressions are `int64` arithmetic, so each is
modelled through `wrap64`. -/
def setUsed (tbl : Table) (id : Nat) (incr : Bool) (capacity : Int) :
    Except DbError Table :=
  match getUser tbl id with
  | .error e => .error e
  | .ok gotUser =>
    if incr && decide (wrap64 (gotUser.UsedSpace + capacity) > gotUser.Quota.SpaceLimit) then
      .error .ErrReachedLimit
    else if incr then
      .ok (updateUsedSpace tbl gotUser.ID (wrap64 (gotUser.UsedSpace + capacity)))
    else if wrap64 (gotUser.UsedSpace - capacity) < 0 then
      .error .ErrNegtiveUsedSpace
    else
      .ok (updateUsedSpace tbl gotUser.ID (wrap64 (gotUser.UsedSpace - capacity)))

/-- `SetUsed` (users.go lines 230–234): `Lock`, then `setUsed`. -/
def SetUsed (tbl : Table) (id : Nat) (incr : Bool) (capacity : Int) :
    Except DbError Table :=
  setUsed tbl id incr capacity

/-- `ResetUsed` (users.go lines 270–283): `Lock`, then `update t_user
set used_space=? where id=?` — no read, no quota or sign check. -/
def ResetUsed (tbl : Table) (id : Nat) (used : Int) : Except DbError Table :=
  .ok (updateUsedSpace tbl id used)

/-- The row loop of `ListUsers`: each row is scanned into a fresh `User`
without the `pwd` column (the query selects only `id, name, role,
used_space, quota, preference`), so `Pwd` keeps Go's zero value `""`;
the first decode failure aborts the whole listing. -/
def listRows : Table → Except DbError (List User)
  | [] => .ok []
  | r :: rest =>
    match decodeQuota r.quota with
    | none => .error .ErrDecode
    | some q =>
      match decodePreferences r.preference with
      | none => .error .ErrDecode
      | some p =>
        match listRows rest with
        | .error e => .error e
        | .ok us => .ok (⟨r.id, r.name, "", r.role, r.used_space, q, p⟩ :: us)

/-- `ListUsers` (users.go lines 285–330): `RLock`, full-table select of
`id, name, role, used_space, quota, preference` (no `pwd`), decode each
row. -/
def ListUsers (tbl : Table) : Except DbError (List User) :=
  listRows tbl

/-- `ListUserIDs` (users.go lines 332–346): `RLock`, `ListUsers`, then
the Name → string(ID) projection. -/
def ListUserIDs (tbl : Table) : Except DbError (List (String × String)) :=
  match ListUsers tbl with
  | .error e => .error e
  | .ok users => .ok (users.map fun u => (u.Name, toString u.ID))

/-- Outcome of a Go call that may return normally, return an error, or
panic. -/
inductive RoleOutcome (α : Type) where
  | ok : α → RoleOutcome α
  | err : DbError → RoleOutcome α
  | panicked : String → RoleOutcome α
  deriving Repr, DecidableEq

/-- `AddRole` (users.go lines 348–351): body is `panic("not implemented")`. -/
def AddRole (role : String) : RoleOutcome Unit :=
  .panicked "not implemented"

/-- `DelRole` (users.go lines 353–356): body is `panic("not implemented")`. -/
def DelRole (role : String) : RoleOutcome Unit :=
  .panicked "not implemented"

/-- `ListRoles` (users.go lines 358–361): body is `panic("not implemented")`. -/
def ListRoles : RoleOutcome (List (String × Bool)) :=
  .panicked "not implemented"

/- ## The accounting guard -/

/-- The two roles of the store's `sync.RWMutex`. -/
inductive Guard where
  | exclusive
  | shared
  deriving Repr, DecidableEq

/-- The exported methods of `SQLiteStore`. -/
inductive StoreOp where
  | addUserOp
  | delUserOp
  | getUserOp
  | getUserByNameOp
  | setPwdOp
  | setInfoOp
  | setPreferencesOp
  | setUsedOp
  | resetUsedOp
  | listUsersOp
  | listUserIDsOp
  deriving Repr, DecidableEq

/-- The guard acquisition of each exported method, read off the first
statement of each method body in `users.go`: `st.Lock()` = exclusive,
`st.RLock()` = shared.  In every method the matching release is deferred
(`defer st.Unlock()` / `defer st.RUnlock()`) so it runs on every exit
path, error returns included. -/
def guardOf : StoreOp → Guard
  | .addUserOp => .exclusive
  | .delUserOp => .exclusive
  | .getUserOp => .shared
  | .getUserByNameOp => .shared
  | .setPwdOp => .exclusive
  | .setInfoOp => .exclusive
  | .setPreferencesOp => .exclusive
  | .setUsedOp => .exclusive
  | .resetUsedOp => .exclusive
  | .listUsersOp => .shared
  | .listUserIDsOp => .shared

/- ## Shared specification predicates and helper lemmas -/

/-- `tbl'` is `tbl` with the `used_space` of every row keyed `id`
overwritten by `v`: same length, rows with that id change only their
`used_space` field, every other row is untouched. -/
def UpdatedUsed (tbl tbl' : Table) (id : Nat) (v : Int) : Prop :=
  tbl'.length = tbl.length ∧
    ∀ i (h : i < tbl.length) (h' : i < tbl'.length),
      ((tbl.get ⟨i, h⟩).id = id →
        tbl'.get ⟨i, h'⟩ = { tbl.get ⟨i, h⟩ with used_space := v }) ∧
      ((tbl.get ⟨i, h⟩).id ≠ id → tbl'.get ⟨i, h'⟩ = tbl.get ⟨i, h⟩)

/-- The per-row accounting invariant of the spec: the stored
`used_space` is nonnegative and does not exceed the space limit of the
row's (decodable) quota. -/
def RowInv (r : Row) : Prop :=
  0 ≤ r.used_space ∧
    ∀ q, decodeQuota r.quota = some q → r.used_space ≤ q.SpaceLimit

/- ## Concrete fixtures used by the witnesses and counterexamples -/

/-- Quota of the demo user: `SpaceLimit = 10`. -/
def demoQuota : Quota := ⟨10⟩

/-- Preferences of the demo user. -/
def demoPrefs : Preferences := ⟨"dark"⟩

/-- A stored row: id 1, name "alice", password "pw", role "admin",
`used_space = 9`, encoded quota with `SpaceLimit = 10`. -/
def demoRow : Row :=
  ⟨1, "alice", "pw", "admin", 9, encodeQuota demoQuota,
   encodePreferences demoPrefs⟩

/-- A one-row `t_user` table holding `demoRow`. -/
def demoTable : Table := [demoRow]

/-- A stored row used by the overflow counterexamples: id 1,
`used_space = 5`, encoded quota with `SpaceLimit = 10`. -/
def ovRow : Row :=
  ⟨1, "bob", "pw", "admin", 5, encodeQuota ⟨10⟩, encodePreferences ⟨"dark"⟩⟩

/-- A one-row `t_user` table holding `ovRow`. -/
def ovTable : Table := [ovRow]

/-- The decoded record of `demoRow`, as `GetUser` returns it. -/
def demoUser : User := ⟨1, "alice", "pw", "admin", 9, demoQuota, demoPrefs⟩

/-- The record `ListUsers` produces for `demoRow`: identical to
`demoUser` except that `Pwd` is the zero value `""`. -/
def demoListed : User := ⟨1, "alice", "", "admin", 9, demoQuota, demoPrefs⟩

/-- A malformed user record (empty `Name`, `Pwd` and `Role`). -/
def badUser : User := ⟨2, "", "", "", 0, ⟨10⟩, ⟨""⟩⟩

/-- A row of the accounting scenario of C9: user id 1 with
`used_space = u` and a quota whose encoded `SpaceLimit` is `L`. -/
def acctRow (u L : Int) : Row :=
  ⟨1, "alice", "pw", "admin", u, encodeQuota ⟨L⟩,
   encodePreferences ⟨"dark"⟩⟩

/-- A one-row table holding `acctRow u L`. -/
def acctTable (u L : Int) : Table := [acctRow u L]

/-- Tally of a serialized batch of `SetUsed` calls: how many committed,
how many failed with `ErrReachedLimit`, how many failed otherwise, and
the final table. -/
structure RunStats where
  committed : Nat
  quotaFailed : Nat
  otherFailed : Nat
  table : Table
  deriving Repr, DecidableEq

/-- Serialized execution of `m` calls of `SetUsed(id, increase, 1)`:
because every `SetUsed` holds the store's guard exclusively for its
whole read-modify-write section, any `m` concurrent such calls execute
one after the other, each seeing the table the previous one left. -/
def runIncrOnes (id : Nat) : Nat → Table → RunStats
  | 0, tbl => ⟨0, 0, 0, tbl⟩
  | m + 1, tbl =>
    match SetUsed tbl id true 1 with
    | .ok tbl' =>
      let rest := runIncrOnes id m tbl'
      { rest with committed := rest.committed + 1 }
    | .error .ErrReachedLimit =>
      let rest := runIncrOnes id m tbl
      { rest with quotaFailed := rest.quotaFailed + 1 }
    | .error _ =>
      let rest := runIncrOnes id m tbl
      { rest with otherFailed := rest.otherFailed + 1 }

/- ## Codec round-trip lemmas -/

theorem all_x_replicate (k : Nat) :
    ((List.replicate k 'x').all fun d => d == 'x') = true := by
  induction k with
  | zero => rfl
  | succ n ih => simp [List.replicate, ih]

theorem decodeInt_encodeInt (i : Int) : decodeInt (encodeInt i) = some i := by
  unfold encodeInt decodeInt
  by_cases h : i < 0
  · have hpos : 0 < i.natAbs := by omega
    obtain ⟨n, hn⟩ : ∃ n, i.natAbs = n + 1 := ⟨i.natAbs - 1, by omega⟩
    rw [if_pos h, hn]
    simp only [String.data, List.isEmpty_cons, List.head?_cons, List.tail_cons,
      List.replicate, Bool.false_eq_true, if_false, List.all_cons,
      List.length_cons, List.length_replicate]
    rw [if_pos trivial, if_pos (by simp [all_x_replicate n])]
    congr 1
    omega
  · rw [if_neg h]
    cases hn : i.natAbs with
    | zero =>
      have h0 : i = 0 := by omega
      subst h0
      rfl
    | succ n =>
      simp only [List.replicate, String.data, List.isEmpty_cons,
        Bool.false_eq_true, if_false, List.head?_cons, List.all_cons,
        List.length_cons, List.length_replicate]
      rw [if_neg (by decide), if_pos (by simp [all_x_replicate n])]
      congr 1
      omega

theorem decodeQuota_encodeQuota (q : Quota) :
    decodeQuota (encodeQuota q) = some q := by
  unfold decodeQuota encodeQuota
  rw [decodeInt_encodeInt]
  rfl

theorem decodePreferences_encodePreferences (p : Preferences) :
    decodePreferences (encodePreferences p) = some p :=
  rfl

/- ## Helper lemmas about the operations -/

/-- `wrap64` is the identity on values already in the `int64` range. -/
theorem wrap64_eq_self (i : Int) (h1 : int64Min ≤ i) (h2 : i ≤ int64Max) :
    wrap64 i = i := by
  unfold wrap64 int64Min int64Max at *
  omega

theorem updateUsedSpace_spec (tbl : Table) (id : Nat) (v : Int) :
    UpdatedUsed tbl (updateUsedSpace tbl id v) id v := by
  refine ⟨by simp [updateUsedSpace], ?_⟩
  intro i h h'
  simp only [List.get_eq_getElem]
  constructor
  · intro hid
    simp [updateUsedSpace, hid]
  · intro hid
    simp [updateUsedSpace, hid]

theorem getUser_eq (tbl : Table) (id : Nat) (r : Row) (q : Quota)
    (hfind : selectById tbl id = some r)
    (hq : decodeQuota r.quota = some q) :
    getUser tbl id = .ok ⟨r.id, r.name, r.pwd, r.role, r.used_space, q,
      ⟨r.preference⟩⟩ := by
  unfold getUser
  rw [hfind]
  dsimp only
  rw [hq]
  rfl

theorem getUser_notfound (tbl : Table) (id : Nat)
    (hfind : selectById tbl id = none) :
    getUser tbl id = .error .ErrUserNotFound := by
  unfold getUser
  rw [hfind]

theorem getUser_decode_err (tbl : Table) (id : Nat) (r : Row)
    (hfind : selectById tbl id = some r)
    (hq : decodeQuota r.quota = none) :
    getUser tbl id = .error .ErrDecode := by
  unfold getUser
  rw [hfind]
  dsimp only
  rw [hq]

theorem selectById_id (tbl : Table) (id : Nat) (r : Row)
    (hfind : selectById tbl id = some r) : r.id = id := by
  have h1 := List.find?_some hfind
  simpa using h1

/-- Full evaluation of `setUsed` at a stored row `r` with decodable
quota `q`. -/
theorem setUsed_eq (tbl : Table) (id : Nat) (incr : Bool) (capacity : Int)
    (r : Row) (q : Quota)
    (hfind : selectById tbl id = some r)
    (hq : decodeQuota r.quota = some q) :
    setUsed tbl id incr capacity =
      if incr && decide (wrap64 (r.used_space + capacity) > q.SpaceLimit) then
        .error .ErrReachedLimit
      else if incr then
        .ok (updateUsedSpace tbl id (wrap64 (r.used_space + capacity)))
      else if wrap64 (r.used_space - capacity) < 0 then
        .error .ErrNegtiveUsedSpace
      else
        .ok (updateUsedSpace tbl id (wrap64 (r.used_space - capacity))) := by
  have hrid : r.id = id := selectById_id tbl id r hfind
  unfold setUsed
  rw [getUser_eq tbl id r q hfind hq]
  dsimp only
  rw [hrid]

/-- `setUsed` propagates a `getUser` failure unchanged and commits
nothing. -/
theorem setUsed_err (tbl : Table) (id : Nat) (incr : Bool) (capacity : Int)
    (e : DbError) (h : getUser tbl id = .error e) :
    setUsed tbl id incr capacity = .error e := by
  unfold setUsed
  rw [h]

/- ## The claims -/

/-- Counterexample to C1 as stated ("for every amount"): stored
`UsedSpace = 5`, `SpaceLimit = 10`, amount `2^63 - 1`.  Mathematically
`UsedSpace + amount > SpaceLimit`, so the claim demands
`ErrReachedLimit` with no write; but the program's int64 sum wraps to
`2^63 - 4 - 2^64 = int64Min + 4 < 0`, passes the quota check, and
commits the wrapped negative value. -/
theorem setUsed_increase_quota_cex :
    (5 : Int) + int64Max > 10 ∧
    SetUsed ovTable 1 true int64Max =
      .ok [{ ovRow with used_space := -9223372036854775804 }] :=
  ⟨by decide, rfl⟩

/-- C1 (amended): for every stored user (row `r` with decodable quota
`q`) and every amount such that the int64 sum `UsedSpace + amount`
does not overflow (stays in `[int64Min, int64Max]`),
`SetUsed(id, increase, amount)` with
`UsedSpace + amount > Quota.SpaceLimit` fails with `ErrReachedLimit`
(QuotaExceeded) and commits no table (the stored row is unchanged);
with `UsedSpace + amount ≤ Quota.SpaceLimit` it succeeds and persists
`UsedSpace + amount`, touching nothing else.  (When the sum overflows
it wraps, see the counterexample.) -/
theorem setUsed_increase_quota (tbl : Table) (id : Nat) (amount : Int)
    (r : Row) (q : Quota)
    (hfind : selectById tbl id = some r)
    (hq : decodeQuota r.quota = some q)
    (hlo : int64Min ≤ r.used_space + amount)
    (hhi : r.used_space + amount ≤ int64Max) :
    (r.used_space + amount > q.SpaceLimit →
      SetUsed tbl id true amount = .error .ErrReachedLimit) ∧
    (r.used_space + amount ≤ q.SpaceLimit →
      ∃ tbl', SetUsed tbl id true amount = .ok tbl' ∧
        UpdatedUsed tbl tbl' id (r.used_space + amount)) := by
  have he := setUsed_eq tbl id true amount r q hfind hq
  rw [wrap64_eq_self (r.used_space + amount) hlo hhi] at he
  constructor
  · intro hgt
    show setUsed tbl id true amount = _
    rw [he, if_pos (by simp only [Bool.true_and, decide_eq_true_eq]; exact hgt)]
  · intro hle
    show ∃ tbl', setUsed tbl id true amount = .ok tbl' ∧ _
    rw [he, if_neg (by simp only [Bool.true_and, decide_eq_true_eq]; omega),
      if_pos rfl]
    exact ⟨_, rfl, updateUsedSpace_spec tbl id _⟩

/-- Witness for C1 on the demo table (`UsedSpace = 9`,
`SpaceLimit = 10`): increasing by 2 fails with `ErrReachedLimit`,
increasing by 1 commits `UsedSpace = 10`. -/
theorem setUsed_increase_quota_witness :
    SetUsed demoTable 1 true 2 = .error .ErrReachedLimit ∧
    ∃ tbl', SetUsed demoTable 1 true 1 = .ok tbl' ∧
      UpdatedUsed demoTable tbl' 1 10 := by
  constructor
  · exact (setUsed_increase_quota demoTable 1 2 demoRow demoQuota rfl
      (decodeQuota_encodeQuota demoQuota) (by decide) (by decide)).1 (by decide)
  · have h2 := (setUsed_increase_quota demoTable 1 1 demoRow demoQuota rfl
      (decodeQuota_encodeQuota demoQuota) (by decide) (by decide)).2 (by decide)
    simpa [demoRow] using h2

/-- Counterexample to C2 as stated ("for every amount"): stored
`UsedSpace = 5`, amount `-2^63`.  Mathematically
`UsedSpace - amount = 5 + 2^63 ≥ 0`, so the claim demands success
persisting that value; but the program's int64 difference wraps to
`5 - 2^63 < 0` and it fails with `ErrNegtiveUsedSpace`, writing
nothing. -/
theorem setUsed_decrease_negative_cex :
    (0 : Int) ≤ 5 - int64Min ∧
    SetUsed ovTable 1 false int64Min = .error .ErrNegtiveUsedSpace :=
  ⟨by decide, rfl⟩

/-- C2 (amended): for every stored user (row `r` with decodable quota)
and every amount such that the int64 difference `UsedSpace - amount`
does not overflow (stays in `[int64Min, int64Max]`),
`SetUsed(id, decrease, amount)` with `UsedSpace - amount < 0` fails
with `ErrNegtiveUsedSpace` (NegativeUsage) and commits no table; with
`UsedSpace - amount ≥ 0` it succeeds and persists
`UsedSpace - amount`, touching nothing else.  (When the difference
overflows it wraps, see the counterexample.) -/
theorem setUsed_decrease_negative (tbl : Table) (id : Nat) (amount : Int)
    (r : Row) (q : Quota)
    (hfind : selectById tbl id = some r)
    (hq : decodeQuota r.quota = some q)
    (hlo : int64Min ≤ r.used_space - amount)
    (hhi : r.used_space - amount ≤ int64Max) :
    (r.used_space - amount < 0 →
      SetUsed tbl id false amount = .error .ErrNegtiveUsedSpace) ∧
    (0 ≤ r.used_space - amount →
      ∃ tbl', SetUsed tbl id false amount = .ok tbl' ∧
        UpdatedUsed tbl tbl' id (r.used_space - amount)) := by
  have he := setUsed_eq tbl id false amount r q hfind hq
  rw [wrap64_eq_self (r.used_space - amount) hlo hhi] at he
  constructor
  · intro hlt
    show setUsed tbl id false amount = _
    rw [he, if_neg (by simp), if_neg (by simp), if_pos hlt]
  · intro hge
    show ∃ tbl', setUsed tbl id false amount = .ok tbl' ∧ _
    rw [he, if_neg (by simp), if_neg (by simp), if_neg (by omega)]
    exact ⟨_, rfl, updateUsedSpace_spec tbl id _⟩

/-- Witness for C2 on the demo table (`UsedSpace = 9`): decreasing by
10 fails with `ErrNegtiveUsedSpace`, decreasing by 9 commits
`UsedSpace = 0`. -/
theorem setUsed_decrease_negative_witness :
    SetUsed demoTable 1 false 10 = .error .ErrNegtiveUsedSpace ∧
    ∃ tbl', SetUsed demoTable 1 false 9 = .ok tbl' ∧
      UpdatedUsed demoTable tbl' 1 0 := by
  constructor
  · exact (setUsed_decrease_negative demoTable 1 10 demoRow demoQuota rfl
      (decodeQuota_encodeQuota demoQuota) (by decide) (by decide)).1 (by decide)
  · have h2 := (setUsed_decrease_negative demoTable 1 9 demoRow demoQuota rfl
      (decodeQuota_encodeQuota demoQuota) (by decide) (by decide)).2 (by decide)
    simpa [demoRow] using h2

/-- Packaging of the accounting invariant from pointwise bounds. -/
theorem rowInv_of_decode (r : Row) (q : Quota)
    (hq : decodeQuota r.quota = some q)
    (h0 : 0 ≤ r.used_space) (h1 : r.used_space ≤ q.SpaceLimit) :
    RowInv r := by
  refine ⟨h0, fun q' hq' => ?_⟩
  rw [hq] at hq'
  injection hq' with h
  subst h
  exact h1

/-- After writing `v` with `0 ≤ v ≤ q.SpaceLimit`, where `q` is the
quota stored at the (unique) row keyed `id`, every row satisfies the
accounting invariant again. -/
theorem inv_after_update (tbl : Table) (id : Nat) (v : Int) (r : Row)
    (q : Quota)
    (huniq : (tbl.map Row.id).Nodup)
    (hf : selectById tbl id = some r)
    (hq : decodeQuota r.quota = some q)
    (hinv : ∀ r' ∈ tbl, RowInv r')
    (h0 : 0 ≤ v) (hlim : v ≤ q.SpaceLimit) :
    ∀ r' ∈ updateUsedSpace tbl id v, RowInv r' := by
  intro r' hr'
  rw [updateUsedSpace, List.mem_map] at hr'
  obtain ⟨r₀, hr₀, rfl⟩ := hr'
  by_cases hid : r₀.id = id
  · have hrmem : r ∈ tbl := List.mem_of_find?_eq_some hf
    have hrid : r.id = id := selectById_id tbl id r hf
    have hr₀r : r₀ = r :=
      List.inj_on_of_nodup_map huniq hr₀ hrmem (by rw [hid, hrid])
    subst hr₀r
    rw [if_pos (by simp [hid])]
    exact rowInv_of_decode _ q hq h0 hlim
  · rw [if_neg (by simp [hid])]
    exact hinv r₀ hr₀

/-- Counterexample to C3 as stated ("for any direction and any
amount"): from the invariant-satisfying stored state `UsedSpace = 9`,
`SpaceLimit = 10`, the committed call `SetUsed(1, decrease, -5)`
persists `UsedSpace = 14`, which exceeds the space limit. -/
theorem setUsed_invariant_cex :
    RowInv demoRow ∧
    SetUsed demoTable 1 false (-5) =
      .ok [{ demoRow with used_space := 14 }] ∧
    ¬RowInv { demoRow with used_space := 14 } := by
  refine ⟨rowInv_of_decode demoRow demoQuota (decodeQuota_encodeQuota demoQuota)
    (by decide) (by decide), rfl, ?_⟩
  intro ⟨_, h2⟩
  have h3 := h2 demoQuota (decodeQuota_encodeQuota demoQuota)
  revert h3
  decide

/-- C3 (amended): for every table with unique row ids whose rows all
satisfy the accounting invariant `0 ≤ used_space ≤ SpaceLimit`, every
committed `SetUsed` targeting a stored row `r`, for any direction and
any **nonnegative int64** amount such that the int64 sum
`UsedSpace + amount` does not overflow, leaves every row satisfying
the invariant again.  (As stated the claim is false twice over: a
negative amount passes the direction-specific check and commits an
out-of-range value — see the counterexample — and an overflowing
nonnegative amount wraps the int64 sum past the quota check.) -/
theorem setUsed_preserves_invariant (tbl tbl' : Table) (id : Nat)
    (incr : Bool) (amount : Int) (r : Row) (q : Quota)
    (huniq : (tbl.map Row.id).Nodup)
    (hfind : selectById tbl id = some r)
    (hq : decodeQuota r.quota = some q)
    (hamt : 0 ≤ amount) (hamt64 : amount ≤ int64Max)
    (hsum : r.used_space + amount ≤ int64Max)
    (hok : SetUsed tbl id incr amount = .ok tbl')
    (hinv : ∀ r' ∈ tbl, RowInv r') :
    ∀ r' ∈ tbl', RowInv r' := by
  have hrinv := hinv r (List.mem_of_find?_eq_some hfind)
  have hused0 : 0 ≤ r.used_space := hrinv.1
  have husedL : r.used_space ≤ q.SpaceLimit := hrinv.2 q hq
  simp only [int64Max] at hamt64 hsum
  rw [show SetUsed tbl id incr amount = setUsed tbl id incr amount from rfl,
    setUsed_eq tbl id incr amount r q hfind hq] at hok
  cases incr with
  | false =>
    rw [wrap64_eq_self (r.used_space - amount)
      (by simp only [int64Min]; omega) (by simp only [int64Max]; omega)] at hok
    rw [if_neg (by simp), if_neg (by simp)] at hok
    by_cases hneg : r.used_space - amount < 0
    · rw [if_pos hneg] at hok
      cases hok
    · rw [if_neg hneg] at hok
      injection hok with h'
      subst h'
      exact inv_after_update tbl id _ r q huniq hfind hq hinv (by omega) (by omega)
  | true =>
    rw [wrap64_eq_self (r.used_space + amount)
      (by simp only [int64Min]; omega) (by simp only [int64Max]; omega)] at hok
    by_cases hgt : r.used_space + amount > q.SpaceLimit
    · rw [if_pos (by simp only [Bool.true_and, decide_eq_true_eq]; exact hgt)] at hok
      cases hok
    · rw [if_neg (by simp only [Bool.true_and, decide_eq_true_eq]; omega),
        if_pos rfl] at hok
      injection hok with h'
      subst h'
      exact inv_after_update tbl id _ r q huniq hfind hq hinv (by omega) (by omega)

/-- Witness for the amended C3: the committed increase by 1 on the demo
table leaves its row satisfying the invariant. -/
theorem setUsed_preserves_invariant_witness :
    SetUsed demoTable 1 true 1 = .ok [{ demoRow with used_space := 10 }] ∧
    ∀ r ∈ [{ demoRow with used_space := (10 : Int) }], RowInv r := by
  refine ⟨rfl, setUsed_preserves_invariant demoTable
    [{ demoRow with used_space := 10 }] 1 true 1 demoRow demoQuota
    (by decide) rfl (decodeQuota_encodeQuota demoQuota)
    (by decide) (by decide) (by decide) rfl ?_⟩
  intro r hr
  have hr' : r = demoRow := by simpa [demoTable] using hr
  subst hr'
  exact rowInv_of_decode demoRow demoQuota (decodeQuota_encodeQuota demoQuota)
    (by decide) (by decide)

/-- Counterexample to C6 as stated: `AddRole` (likewise `DelRole`,
`ListRoles`) panics with "not implemented" instead of returning an
`Unimplemented` error. -/
theorem roles_unimplemented_cex :
    AddRole "admin" = .panicked "not implemented" ∧
    AddRole "admin" ≠ .err .ErrUnimplemented ∧
    DelRole "admin" ≠ .err .ErrUnimplemented ∧
    ListRoles ≠ .err .ErrUnimplemented := by
  refine ⟨rfl, ?_, ?_, ?_⟩ <;> intro h <;> cases h

/-- C6 (amended): each unimplemented role-management operation
(`AddRole`, `DelRole`, `ListRoles`) panics with "not implemented" for
every input — it crashes rather than returning an explicit
`Unimplemented` error. -/
theorem roles_panic (role : String) :
    AddRole role = .panicked "not implemented" ∧
    DelRole role = .panicked "not implemented" ∧
    ListRoles = .panicked "not implemented" :=
  ⟨rfl, rfl, rfl⟩

/-- C7: for every id with no stored row, `GetUser` fails with
`ErrUserNotFound`, and `SetUsed` for any direction and amount fails
with `ErrUserNotFound` committing no table (the store is unchanged). -/
theorem missing_id_notfound (tbl : Table) (id : Nat)
    (habsent : selectById tbl id = none) :
    GetUser tbl id = .error .ErrUserNotFound ∧
    ∀ incr amount, SetUsed tbl id incr amount = .error .ErrUserNotFound := by
  have hg := getUser_notfound tbl id habsent
  exact ⟨hg, fun incr amount => setUsed_err tbl id incr amount _ hg⟩

/-- Witness for C7: on the empty table, id 7 is absent and both
operations fail with `ErrUserNotFound`. -/
theorem missing_id_notfound_witness :
    GetUser [] 7 = .error .ErrUserNotFound ∧
    SetUsed [] 7 true 1 = .error .ErrUserNotFound :=
  ⟨(missing_id_notfound [] 7 rfl).1, (missing_id_notfound [] 7 rfl).2 true 1⟩

/-- C4: for every table, id and value `v`, `ResetUsed(id, v)` succeeds
and overwrites the stored `used_space` of the row keyed `id` with `v` —
no increment/decrement check, no condition on the prior value or the
quota — leaving all other fields of the row, and all other rows,
unchanged. -/
theorem resetUsed_overwrites (tbl : Table) (id : Nat) (v : Int) :
    ∃ tbl', ResetUsed tbl id v = .ok tbl' ∧ UpdatedUsed tbl tbl' id v :=
  ⟨_, rfl, updateUsedSpace_spec tbl id v⟩

/-- Counterexample to C5 as stated: `badUser` is malformed (`CheckUser`
rejects it with a validation error), yet `AddUser` on the empty table
succeeds and inserts its row — no validation error is returned and a
row is inserted. -/
theorem addUser_skips_validation_cex :
    CheckUser badUser false = .error .ErrValidation ∧
    AddUser [] badUser = .ok [toRow badUser] :=
  ⟨rfl, rfl⟩

/-- C5 (amended): `AddUser` performs no validation: for every record
whose ID and Name are not yet present — malformed or not — it encodes
and inserts the row and succeeds.  The `CheckUser` validation lives
only in `setUser`, which does fail with the validation error on a
malformed record before writing. -/
theorem addUser_no_validation (tbl : Table) (user : User)
    (hfresh : tbl.any (fun r => r.id == user.ID || r.name == user.Name) = false) :
    AddUser tbl user = .ok (tbl ++ [toRow user]) ∧
    (CheckUser user false = .error .ErrValidation →
      setUser tbl user = .error .ErrValidation) := by
  constructor
  · simp [AddUser, hfresh]
  · intro hbad
    unfold setUser
    rw [hbad]

/-- Witness for the amended C5: the malformed `badUser` is inserted by
`AddUser` without error, while `setUser` rejects it. -/
theorem addUser_no_validation_witness :
    AddUser [] badUser = .ok [toRow badUser] ∧
    setUser [] badUser = .error .ErrValidation := by
  have h := addUser_no_validation [] badUser rfl
  exact ⟨h.1, h.2 rfl⟩

/-- C8: for every valid user record `u` whose ID and Name are not yet
present, `AddUser(u)` succeeds and `GetUser(u.ID)` on the resulting
table returns a record equal to `u` — all scalar fields and the decoded
Quota and Preferences sub-records round-trip exactly. -/
theorem addUser_getUser_roundtrip (tbl : Table) (u : User)
    (hvalid : CheckUser u false = .ok ())
    (hid : ∀ r ∈ tbl, r.id ≠ u.ID)
    (hname : ∀ r ∈ tbl, r.name ≠ u.Name) :
    ∃ tbl', AddUser tbl u = .ok tbl' ∧ GetUser tbl' u.ID = .ok u := by
  have hany : tbl.any (fun r => r.id == u.ID || r.name == u.Name) = false := by
    rw [List.any_eq_false]
    intro r hr
    simp [hid r hr, hname r hr]
  refine ⟨tbl ++ [toRow u], by simp [AddUser, hany], ?_⟩
  have hnone : tbl.find? (fun r => r.id == u.ID) = none := by
    rw [List.find?_eq_none]
    intro r hr
    simp [hid r hr]
  have hsel : selectById (tbl ++ [toRow u]) u.ID = some (toRow u) := by
    unfold selectById
    rw [List.find?_append, hnone]
    simp [toRow]
  exact getUser_eq (tbl ++ [toRow u]) u.ID (toRow u) u.Quota hsel
    (decodeQuota_encodeQuota u.Quota)

/-- Witness for C8: adding the valid `demoUser` to the empty table and
reading it back returns it unchanged. -/
theorem addUser_getUser_roundtrip_witness :
    CheckUser demoUser false = .ok () ∧
    ∃ tbl', AddUser [] demoUser = .ok tbl' ∧
      GetUser tbl' demoUser.ID = .ok demoUser := by
  refine ⟨rfl, addUser_getUser_roundtrip [] demoUser rfl ?_ ?_⟩ <;> simp

/-- Every user produced by the `ListUsers` row loop has an empty `Pwd`
(the query does not select the `pwd` column). -/
theorem listRows_pwd (tbl : Table) :
    ∀ us, listRows tbl = .ok us → ∀ u ∈ us, u.Pwd = "" := by
  induction tbl with
  | nil =>
    intro us h u hu
    injection h with h'
    subst h'
    cases hu
  | cons r rest ih =>
    intro us h u hu
    unfold listRows at h
    cases hq : decodeQuota r.quota with
    | none =>
      rw [hq] at h
      cases h
    | some q =>
      rw [hq] at h
      dsimp only [decodePreferences] at h
      cases hrec : listRows rest with
      | error e =>
        rw [hrec] at h
        cases h
      | ok us' =>
        rw [hrec] at h
        dsimp only at h
        injection h with h'
        subst h'
        rcases List.mem_cons.mp hu with h1 | h2
        · subst h1
          rfl
        · exact ih us' hrec u h2

/-- C10: every record returned by `ListUsers` has an empty `Pwd` field
(the listing query does not read the `pwd` column), so whenever
`GetUser` returns a record with a non-empty password, the `ListUsers`
record with the same id differs from it. -/
theorem listUsers_pwd_empty (tbl : Table) (us : List User)
    (hus : ListUsers tbl = .ok us) :
    (∀ u ∈ us, u.Pwd = "") ∧
    (∀ id g, GetUser tbl id = .ok g → g.Pwd ≠ "" →
      ∀ u ∈ us, u.ID = id → u ≠ g) := by
  have hempty := listRows_pwd tbl us hus
  refine ⟨hempty, ?_⟩
  intro id g hg hpwd u hu _ hue
  exact hpwd (hue ▸ hempty u hu)

/-- Witness for C10: on the demo table the listed record has `Pwd = ""`
while `GetUser` returns the stored password "pw", and the two records
differ. -/
theorem listUsers_pwd_empty_witness :
    ListUsers demoTable = .ok [demoListed] ∧ demoListed.Pwd = "" ∧
    GetUser demoTable 1 = .ok demoUser ∧ demoUser.Pwd = "pw" ∧
    demoListed ≠ demoUser := by
  have h := listUsers_pwd_empty demoTable [demoListed] rfl
  refine ⟨rfl, h.1 demoListed (by simp), rfl, rfl, ?_⟩
  exact h.2 1 demoUser rfl (by decide) demoListed (by simp) rfl

/-- One `SetUsed(1, increase, 1)` step on the accounting table: it
fails with `ErrReachedLimit` exactly when the wrapped int64 sum
`used_space + 1` exceeds the limit, else it commits that wrapped
sum. -/
theorem setUsed_acct (u L : Int) :
    SetUsed (acctTable u L) 1 true 1 =
      if wrap64 (u + 1) > L then .error .ErrReachedLimit
      else .ok (acctTable (wrap64 (u + 1)) L) := by
  have he := setUsed_eq (acctTable u L) 1 true 1 (acctRow u L) ⟨L⟩ rfl
    (decodeQuota_encodeQuota ⟨L⟩)
  have hused : (acctRow u L).used_space = u := rfl
  rw [hused] at he
  show setUsed (acctTable u L) 1 true 1 = _
  rw [he]
  by_cases hgt : wrap64 (u + 1) > L
  · rw [if_pos (by simp only [Bool.true_and, decide_eq_true_eq]; exact hgt),
      if_pos hgt]
  · rw [if_neg (by simp only [Bool.true_and, decide_eq_true_eq]; exact hgt),
      if_pos rfl, if_neg hgt]
    rfl

/-- Serialized batch of `m` increase-by-1 calls starting at use `u`
with limit `L` in int64 range (`L + 1 ≤ int64Max`, so no sum wraps),
one more call than fits (`u + m = L + 1`): all but one commit, exactly
one fails with `ErrReachedLimit`, none fails otherwise, and the final
used space is `L`. -/
theorem runIncrOnes_one_over (L : Int) (hL1 : L + 1 ≤ int64Max) :
    ∀ (m : Nat) (u : Int), 0 ≤ u → u ≤ L → u + (m : Int) = L + 1 →
      runIncrOnes 1 m (acctTable u L) = ⟨m - 1, 1, 0, acctTable L L⟩ := by
  intro m
  induction m with
  | zero =>
    intro u h0 hL hm
    exfalso
    omega
  | succ n ih =>
    intro u h0 hL hm
    simp only [runIncrOnes]
    rw [setUsed_acct,
      wrap64_eq_self (u + 1) (by simp only [int64Min]; omega)
        (by simp only [int64Max] at hL1 ⊢; omega)]
    by_cases hu : u = L
    · subst hu
      rw [if_pos (by omega)]
      have hn : n = 0 := by omega
      subst hn
      simp [runIncrOnes]
    · rw [if_neg (by omega)]
      dsimp only
      rw [ih (u + 1) (by omega) (by omega) (by omega)]
      have hn1 : 1 ≤ n := by omega
      dsimp only
      congr 1
      omega

/-- Serialized batch of `m` increase-by-1 calls at the very top of the
int64 range (`SpaceLimit = int64Max = 2^63 - 1`), with `u + m` one past
the limit: every call commits — the final call's int64 sum
`int64Max + 1` wraps to `int64Min`, which passes the quota check — so
there is no quota failure and the final used space is the wrapped
`-2^63`. -/
theorem runIncrOnes_wraps :
    ∀ (m : Nat) (u : Int), 0 ≤ u → u ≤ 9223372036854775807 →
      u + (m : Int) = 9223372036854775808 →
      runIncrOnes 1 m (acctTable u 9223372036854775807) =
        ⟨m, 0, 0, acctTable (-9223372036854775808) 9223372036854775807⟩ := by
  intro m
  induction m with
  | zero =>
    intro u h0 hle hm
    exfalso
    omega
  | succ n ih =>
    intro u h0 hle hm
    rw [runIncrOnes.eq_2, setUsed_acct]
    by_cases hu : u = 9223372036854775807
    · subst hu
      rw [show wrap64 (9223372036854775807 + 1) = -9223372036854775808 from
        by decide]
      rw [if_neg (by decide)]
      dsimp only
      have hn : n = 0 := by omega
      subst hn
      rw [runIncrOnes.eq_1]
    · rw [wrap64_eq_self (u + 1) (by simp only [int64Min]; omega)
        (by simp only [int64Max]; omega)]
      rw [if_neg (by omega)]
      dsimp only
      rw [ih (u + 1) (by omega) (by omega) (by omega)]

/-- Counterexample to C9's universal consequence ("for M concurrent
calls … exactly M-1 succeed, one fails with QuotaExceeded"): at
`M = 2^63` the quota `SpaceLimit = M - 1 = int64Max` is a representable
int64 limit, but the final call's int64 sum wraps to `int64Min`, passes
the quota check, and commits: all `2^63` calls succeed, none fails, and
the final used space is `-2^63` — not the claimed `M-1` commits with
one quota failure. -/
theorem accounting_guard_serializes_cex :
    runIncrOnes 1 9223372036854775808
        (acctTable 0 ((9223372036854775808 : Int) - 1)) =
      ⟨9223372036854775808, 0, 0, acctTable int64Min int64Max⟩ ∧
    runIncrOnes 1 9223372036854775808
        (acctTable 0 ((9223372036854775808 : Int) - 1)) ≠
      ⟨9223372036854775808 - 1, 1, 0,
       acctTable ((9223372036854775808 : Int) - 1)
         ((9223372036854775808 : Int) - 1)⟩ := by
  have hL : (9223372036854775808 : Int) - 1 = 9223372036854775807 := by
    norm_num
  have hmain := runIncrOnes_wraps 9223372036854775808 0 le_rfl (by norm_num)
    (by norm_num)
  constructor
  · rw [hL]
    exact hmain
  · intro h
    rw [hL, hmain] at h
    injection h with h1 h2 h3 h4
    exact absurd h2 (by decide)

/-- C9 (amended): every mutating method (`AddUser`, `DelUser`,
`SetPwd`, `SetInfo`, `SetPreferences`, `SetUsed`, `ResetUsed`) acquires
the store's single guard exclusively and every read method (`GetUser`,
`GetUserByName`, `ListUsers`, `ListUserIDs`) acquires it shared (with
the release deferred on every exit path, see `guardOf`), so no two
mutations interleave; consequently for every `M` with
`1 ≤ M ≤ int64Max` (so that the failing call's int64 sum `M` does not
overflow — at `M = 2^63` it wraps, see the counterexample), `M`
concurrent `SetUsed(increase, 1)` calls against a user with
`SpaceLimit = M - 1` and `UsedSpace = 0` execute serially in some
order: exactly `M - 1` commit, exactly one fails with
`ErrReachedLimit`, none fails otherwise, and the final `UsedSpace`
equals `M - 1`. -/
theorem accounting_guard_serializes :
    (guardOf .addUserOp = .exclusive ∧ guardOf .delUserOp = .exclusive ∧
     guardOf .setPwdOp = .exclusive ∧ guardOf .setInfoOp = .exclusive ∧
     guardOf .setPreferencesOp = .exclusive ∧
     guardOf .setUsedOp = .exclusive ∧ guardOf .resetUsedOp = .exclusive ∧
     guardOf .getUserOp = .shared ∧ guardOf .getUserByNameOp = .shared ∧
     guardOf .listUsersOp = .shared ∧ guardOf .listUserIDsOp = .shared) ∧
    ∀ M : Nat, 1 ≤ M → (M : Int) ≤ int64Max →
      runIncrOnes 1 M (acctTable 0 ((M : Int) - 1)) =
        ⟨M - 1, 1, 0, acctTable ((M : Int) - 1) ((M : Int) - 1)⟩ := by
  refine ⟨⟨rfl, rfl, rfl, rfl, rfl, rfl, rfl, rfl, rfl, rfl, rfl⟩, ?_⟩
  intro M hM hM64
  exact runIncrOnes_one_over ((M : Int) - 1)
    (by simp only [int64Max] at hM64 ⊢; omega) M 0 le_rfl (by omega) (by omega)

/-- Witness for C9 at `M = 5`: of five serialized increase-by-1 calls
against `SpaceLimit = 4`, four commit, one hits the quota, and the
final used space is 4. -/
theorem accounting_guard_serializes_witness :
    runIncrOnes 1 5 (acctTable 0 4) = ⟨4, 1, 0, acctTable 4 4⟩ := by
  have h := accounting_guard_serializes.2 5 (by decide) (by decide)
  norm_num at h
  exact h

end Quickshare
